import Mathlib

/-!
Shallow embedding of `src/main.py` (devhawk/pending-echo): a pair of
deferred-result types — `Immediate` for synchronous computations and
`Pending` for coroutine-based ones — with chaining (`then`) and
resource-scoping (`also`) combinators, a classifying factory
(`make_result`) and a dispatcher (`run_result`).

Modelling choices:
- A Python zero-argument callable with side effects is a `Comp α`:
  a function from the current event log to an outcome (`Except Exn α`,
  where `Except.error` is a raised exception) and the new event log.
  The log records prints, context-manager enter/exit, and generic effect
  ticks; a computation can observe the log (e.g. its length), which
  models observable statefulness across repeated invocations.
- A coroutine is likewise a `Comp α`; awaiting it runs it.  The single-
  threaded cooperative scheduling of `asyncio` means awaited code runs
  to completion in sequence, so no interleaving needs to be modelled.
- Python exceptions are `Exn` values carrying a class tag; `except
  BaseException` catches every `Exn` (all Python exceptions derive from
  `BaseException`).
- A context manager is modelled after `PrintContextManager`, the shape
  `also` is used with in the repository: `__enter__`/`__exit__` emit
  events, and `__exit__` returns a falsy value (no suppression, no
  failure of its own — the spec leaves release-failure policy open).
-/

namespace PendingEcho

/-- Python exception classes appearing in the model. `keyboardInterrupt`
and `systemExit` derive from `BaseException` but not from `Exception`. -/
inductive ExnClass : Type
  | valueError
  | runtimeError
  | keyboardInterrupt
  | systemExit
  | other
  deriving DecidableEq, Repr

/-- Whether the class derives from `Exception` (as opposed to deriving
only from `BaseException`, like `KeyboardInterrupt` and `SystemExit`). -/
def ExnClass.isExceptionSubclass : ExnClass → Bool
  | .keyboardInterrupt => false
  | .systemExit => false
  | _ => true

/-- A Python exception value: its class and its message. -/
structure Exn : Type where
  cls : ExnClass
  msg : String
  deriving DecidableEq, Repr

/-- Observable events: prints, context-manager enter/exit (tagged with
the manager's construction value), and a generic effect tick. -/
inductive Ev : Type
  | print (s : String)
  | enter (name : String)
  | exit (name : String)
  | tick
  deriving DecidableEq, Repr

/-- The event log: the ambient state a computation reads and extends. -/
abbrev St : Type := List Ev

/-- Outcome of running a computation: a value or a raised exception. -/
abbrev Res (α : Type) : Type := Except Exn α

/-- A zero-argument Python callable with observable effects: from the
current event log, produce an outcome and the new log. Thunks handed to
continuations have this same type (`Callable[[], T]` in the source). -/
abbrev Comp (α : Type) : Type := St → Res α × St

/-- A thunk that replays a single fixed outcome: no effects, no
re-execution of any original work. This is the shape of the lambdas
`Pending._do` hands to the continuation. -/
def capturedThunk (o : Res α) : Comp α := fun t => (o, t)

/-- A context manager in the shape of `PrintContextManager`: identified
by its construction value; entering and exiting emit events; `__exit__`
neither suppresses nor raises. -/
structure CM : Type where
  name : String

/-- Python `with cm: return body()` for a non-suppressing context
manager: run `__enter__`, run the body, and on both the normal and the
exceptional path run `__exit__` before the outcome leaves the frame. -/
def withStmt (cm : CM) (body : Comp α) : Comp α := fun s =>
  match body (s ++ [Ev.enter cm.name]) with
  | (Except.ok v, s1) => (Except.ok v, s1 ++ [Ev.exit cm.name])
  | (Except.error e, s1) => (Except.error e, s1 ++ [Ev.exit cm.name])

/-- `Immediate` (src/main.py lines 29-47): wraps a synchronous
zero-argument computation. -/
structure Immediate (α : Type) : Type where
  func : Comp α

/-- `Immediate.then` (line 35-36): `return Immediate(lambda: next(self._func))`
— the continuation receives the wrapped callable itself as its thunk. -/
def Immediate.then' (r : Immediate α) (next : Comp α → Comp β) : Immediate β :=
  ⟨fun s => next r.func s⟩

/-- `Immediate._also` (lines 38-41): `with cm: return func()`. -/
def Immediate.alsoRun (func : Comp α) (cm : CM) : Comp α :=
  withStmt cm func

/-- `Immediate.also` (lines 43-44). -/
def Immediate.also (r : Immediate α) (cm : CM) : Immediate α :=
  ⟨fun s => Immediate.alsoRun r.func cm s⟩

/-- `Immediate.__call__` (lines 46-47): `return self._func()`. -/
def Immediate.call (r : Immediate α) : Comp α :=
  fun s => r.func s

/-- `Pending` (lines 51-89): wraps a zero-argument coroutine function. -/
structure Pending (α : Type) : Type where
  func : Comp α

/-- `Pending._raise` (lines 58-60): raise `ex` from inside a lambda. -/
def Pending.raiseEx (ex : Exn) : Comp α := fun s => (Except.error ex, s)

/-- `Pending._do` (lines 64-72), translated clause by clause:
`try: value = await func(); return next(lambda: value)`
`except BaseException as exp: return next(lambda: Pending._raise(exp))`.
Note the `try` block encloses the call of `next` on the success path,
so a `BaseException` raised by `next` itself is also caught there and
routed into the `except` branch, which calls `next` a second time. -/
def Pending.doRun (func : Comp α) (next : Comp α → Comp β) : Comp β := fun s =>
  match func s with
  | (Except.ok value, s1) =>
    match next (fun t => (Except.ok value, t)) s1 with
    | (Except.ok r, s2) => (Except.ok r, s2)
    | (Except.error exp, s2) => next (fun t => Pending.raiseEx exp t) s2
  | (Except.error exp, s1) => next (fun t => Pending.raiseEx exp t) s1

/-- `Pending.then` (lines 74-75). -/
def Pending.then' (r : Pending α) (next : Comp α → Comp β) : Pending β :=
  ⟨fun s => Pending.doRun r.func next s⟩

/-- `Pending._also` (lines 77-83): `with cm: return await func()`. -/
def Pending.alsoRun (func : Comp α) (cm : CM) : Comp α :=
  withStmt cm func

/-- `Pending.also` (lines 85-86). -/
def Pending.also (r : Pending α) (cm : CM) : Pending α :=
  ⟨fun s => Pending.alsoRun r.func cm s⟩

/-- `Pending.__call__` (lines 88-89): `return await self._func()`. -/
def Pending.call (r : Pending α) : Comp α :=
  fun s => r.func s

/-- A candidate computation handed to `make_result`, tagged with its
declared nature: a plain function or a coroutine function. The tag is
what `inspect.iscoroutinefunction` reads; it is fixed at definition
time and independent of the function's runtime behaviour. -/
inductive PyFunc (α : Type) : Type
  | sync (f : Comp α)
  | coroutine (f : Comp α)

/-- `inspect.iscoroutinefunction`: reads the declared nature only. -/
def PyFunc.iscoroutinefunction : PyFunc α → Bool
  | .sync _ => false
  | .coroutine _ => true

/-- The underlying callable (the `cast` in `make_result` is erased). -/
def PyFunc.body : PyFunc α → Comp α
  | .sync f => f
  | .coroutine f => f

/-- The `Result` protocol value: either variant (lines 22-25, 93). -/
inductive ResultU (α : Type) : Type
  | imm (r : Immediate α)
  | pend (r : Pending α)

/-- `make_result` (lines 93-98): `Pending(func) if
inspect.iscoroutinefunction(func) else Immediate(func)`. -/
def make_result (func : PyFunc α) : ResultU α :=
  if func.iscoroutinefunction then ResultU.pend ⟨func.body⟩
  else ResultU.imm ⟨func.body⟩

/-- Dynamic dispatch of `.then(...)` through the `Result` protocol. -/
def ResultU.then' (r : ResultU α) (next : Comp α → Comp β) : ResultU β :=
  match r with
  | .imm i => .imm (i.then' next)
  | .pend p => .pend (p.then' next)

/-- Invoking whichever variant is live (directly, or by awaiting). -/
def ResultU.invoke (r : ResultU α) : Comp α :=
  match r with
  | .imm i => i.call
  | .pend p => p.call

/-- `run_result` (lines 143-147): calls the `Immediate` directly, or
drives the `Pending` with `asyncio.run`; the body has no `return`
statement, so the call's value is discarded and the function returns
`None` (modelled as `Option α` with value `none`); an exception raised
by the chain propagates out of `run_result` unchanged. -/
def run_result (r : ResultU α) : Comp (Option α) := fun s =>
  match r with
  | .imm i =>
    match i.call s with
    | (Except.ok _, s1) => (Except.ok none, s1)
    | (Except.error e, s1) => (Except.error e, s1)
  | .pend p =>
    match p.call s with
    | (Except.ok _, s1) => (Except.ok none, s1)
    | (Except.error e, s1) => (Except.error e, s1)

/-- `get_answer` (lines 102-103): `return "42"`. -/
def get_answer : Comp String := fun s => (Except.ok "42", s)

/-- `print_result` (lines 113-120): invoke the thunk; on success print
two-space-indented value and return it; on failure print the exception
and re-raise. -/
def print_result (func : Comp String) : Comp String := fun s =>
  match func s with
  | (Except.ok result, s1) =>
    (Except.ok result, s1 ++ [Ev.print ("  " ++ result)])
  | (Except.error exp, s1) => (Except.error exp, s1 ++ [Ev.print exp.msg])

/-! Concrete computations and continuations used in witnesses and
counterexamples. -/

/-- A ValueError, used as a generic leaf failure. -/
def boomExn : Exn := ⟨ExnClass.valueError, "boom"⟩

/-- A RuntimeError raised by a validating continuation. -/
def xExn : Exn := ⟨ExnClass.runtimeError, "X"⟩

/-- A KeyboardInterrupt: derives from `BaseException` only. -/
def interruptExn : Exn := ⟨ExnClass.keyboardInterrupt, "KeyboardInterrupt"⟩

/-- A leaf computation that always raises `boomExn`, with no effects. -/
def failBoom : Comp Nat := fun t => (Except.error boomExn, t)

/-- A leaf computation that always raises `interruptExn`. -/
def failInterrupt : Comp Nat := fun t => (Except.error interruptExn, t)

/-- A leaf computation succeeding with `1`, with no effects. -/
def fOne : Comp Nat := fun s => (Except.ok 1, s)

/-- A stateful leaf computation: it returns the current length of the
event log and records a tick, so re-running it is observable both in
its result and in the log. -/
def fCount : Comp Nat := fun s => (Except.ok s.length, s ++ [Ev.tick])

/-- A leaf computation succeeding with `7` that records a tick, so its
execution (or non-execution) is observable in the log. -/
def fTick : Comp Nat := fun s => (Except.ok 7, s ++ [Ev.tick])

/-- A computation succeeding with `5`, with no effects. -/
def gFive : Comp Nat := fun s => (Except.ok 5, s)

/-- The identity continuation: it returns the thunk it is handed, so
invoking the chain replays the thunk itself. -/
def idCont : Comp Nat → Comp Nat := fun th => th

/-- A continuation that invokes its thunk twice and pairs the two
success values (propagating a failure of either invocation). -/
def cTwice : Comp Nat → Comp (Nat × Nat) := fun th s =>
  match th s with
  | (Except.ok v1, s1) =>
    match th s1 with
    | (Except.ok v2, s2) => (Except.ok (v1, v2), s2)
    | (Except.error e, s2) => (Except.error e, s2)
  | (Except.error e, s1) => (Except.error e, s1)

/-- A retry/fallback-style continuation: it logs each call, returns
"fallback" when the upstream thunk raises, and raises `xExn` (a
validation failure) when the upstream value arrives. In Python:
`def c(th): print("c called"); try: th(); except BaseException: return
"fallback"; raise X`. -/
def cValidate : Comp Nat → Comp String := fun th s =>
  match th (s ++ [Ev.print "c called"]) with
  | (Except.ok _, s1) => (Except.error xExn, s1)
  | (Except.error _, s1) => (Except.ok "fallback", s1)

/-- The sample chain of line 151 up to its `then` stage:
`make_result(get_answer).then(print_result)`. -/
def chainA : ResultU String :=
  (make_result (PyFunc.sync get_answer)).then' print_result

/-! Helper lemmas shared by the claim theorems. -/

/-- A pair whose first component is a raised error is the pair of that
error and its own second component. -/
theorem fst_error_eta {α : Type} {p : Res α × St} {E : Exn}
    (h : p.1 = Except.error E) : p = (Except.error E, p.2) := by
  rcases p with ⟨o, s⟩
  have h2 : o = Except.error E := h
  rw [h2]

/-- Unfolding `Pending._do` when the awaited computation succeeds: the
continuation is tried on a fixed-outcome success thunk, and if the
continuation itself raises it is called a second time on a thunk
replaying that very exception. -/
theorem doRun_ok {α β : Type} (f : Comp α) (c : Comp α → Comp β) {s : St}
    {v : α} {s1 : St} (h : f s = (Except.ok v, s1)) :
    Pending.doRun f c s =
      (match c (capturedThunk (Except.ok v)) s1 with
       | (Except.ok r, s2) => (Except.ok r, s2)
       | (Except.error x, s2) => c (capturedThunk (Except.error x)) s2) := by
  unfold Pending.doRun
  rw [h]
  rfl

/-- Unfolding `Pending._do` when the awaited computation raises: the
continuation is called once, on a thunk replaying the exception, and
its result is returned as is. -/
theorem doRun_error {α β : Type} (f : Comp α) (c : Comp α → Comp β) {s : St}
    {e : Exn} {s1 : St} (h : f s = (Except.error e, s1)) :
    Pending.doRun f c s = c (capturedThunk (Except.error e)) s1 := by
  unfold Pending.doRun
  rw [h]
  rfl

/-! Claim theorems. -/

/-- C1: for every leaf computation `f` failing with `E` and every
continuation `c`, invoking `wrap(f).then(c)` amounts to calling `c` on
a thunk whose every invocation raises exactly `E` — so `E` is never
raised before `c` runs — in both the `Immediate` and the `Pending`
variant. (For `Immediate` the thunk is the wrapped computation itself,
which deterministically raises `E`; for `Pending` it is a captured
replay of `E`.) -/
theorem then_hands_raising_thunk {α β : Type} (f : Comp α) (E : Exn)
    (hf : ∀ t, (f t).1 = Except.error E) (c : Comp α → Comp β) (s : St) :
    (∃ th : Comp α, ((Immediate.mk f).then' c).func s = c th s ∧
      ∀ t, (th t).1 = Except.error E) ∧
    (∃ th : Comp α, ∃ s1 : St, ((Pending.mk f).then' c).func s = c th s1 ∧
      ∀ t, th t = (Except.error E, t)) := by
  refine ⟨⟨f, rfl, hf⟩, ⟨capturedThunk (Except.error E), (f s).2, ?_, fun t => rfl⟩⟩
  exact doRun_error f c (fst_error_eta (hf s))

/-- Witness for C1 at a concrete failing leaf and the identity
continuation. -/
theorem then_hands_raising_thunk_witness :
    (∃ th : Comp Nat, ((Immediate.mk failBoom).then' idCont).func [] = idCont th [] ∧
      ∀ t, (th t).1 = Except.error boomExn) ∧
    (∃ th : Comp Nat, ∃ s1 : St, ((Pending.mk failBoom).then' idCont).func [] = idCont th s1 ∧
      ∀ t, th t = (Except.error boomExn, t)) :=
  then_hands_raising_thunk failBoom boomExn (fun _ => rfl) idCont []

/-- C2 counterexample: on the sample chain
`make_result(get_answer).then(print_result)` the dispatcher performs
the print side effect and propagates no failure, but returns `None`
(`none`) rather than the chain's outcome value `"42"` — `run_result`
has no `return` statement, so the claim that it returns the outcome to
its caller is false. -/
theorem run_result_discards_value_cex :
    run_result chainA [] = (Except.ok none, [Ev.print "  42"]) ∧
    (chainA.invoke []).1 = Except.ok "42" ∧
    (Except.ok none : Res (Option String)) ≠ Except.ok (some "42") := by
  refine ⟨rfl, rfl, by simp⟩

/-- C2 (amended): `run_result` invokes whichever variant is live
(directly for `Immediate`, via `asyncio.run` for `Pending`) and
propagates the chain's failure unchanged, but discards the chain's
success value and returns `None`. -/
theorem run_result_returns_none {α : Type} (r : ResultU α) (s : St) :
    run_result r s =
      (match ResultU.invoke r s with
       | (Except.ok _, s1) => (Except.ok none, s1)
       | (Except.error e, s1) => (Except.error e, s1)) := by
  cases r <;> rfl

/-- C3 counterexample: in the `Immediate` variant the thunk handed to a
continuation is the original wrapped computation itself. With the
stateful leaf `fCount` (returns the log length, records a tick) and a
continuation invoking its thunk twice, the two invocations of one and
the same handed thunk yield the distinct success values `0` and `1`,
and the work's tick effect is recorded twice — the thunk re-executes
the original work instead of replaying one fixed outcome. -/
theorem immediate_thunk_reexecutes_cex :
    ((Immediate.mk fCount).then' cTwice).func []
      = (Except.ok (0, 1), [Ev.tick, Ev.tick]) ∧
    (0 : Nat) ≠ 1 := by
  exact ⟨rfl, by decide⟩

/-- C3 (amended): in the `Pending` variant every thunk handed to a
continuation is a `capturedThunk`: it replays one fixed outcome, with
no effects and no re-execution of the original work, and invoking it
repeatedly yields that same outcome every time. In the `Immediate`
variant, by contrast, the continuation is handed the original wrapped
computation itself, so each invocation of the thunk re-executes that
work. -/
theorem thunk_replay_semantics {α β : Type} (f : Comp α) (c : Comp α → Comp β)
    (s : St) (o : Res α) (s1 : St) (h : f s = (o, s1)) :
    (((Immediate.mk f).then' c).func s = c f s) ∧
    (((Pending.mk f).then' c).func s =
      match o with
      | Except.ok v =>
        (match c (capturedThunk (Except.ok v)) s1 with
         | (Except.ok r, s2) => (Except.ok r, s2)
         | (Except.error x, s2) => c (capturedThunk (Except.error x)) s2)
      | Except.error e => c (capturedThunk (Except.error e)) s1) ∧
    (∀ (oo : Res α) (t u : St),
      (capturedThunk oo t).1 = (capturedThunk oo u).1 ∧ (capturedThunk oo t).2 = t) := by
  refine ⟨rfl, ?_, fun oo t u => ⟨rfl, rfl⟩⟩
  cases o with
  | ok v => exact doRun_ok f c h
  | error e => exact doRun_error f c h

/-- Witness for C3's amended theorem at a concrete successful leaf and
the thunk-invoking continuation `cTwice`. -/
theorem thunk_replay_semantics_witness :
    gFive [] = (Except.ok 5, []) ∧
    ((((Immediate.mk gFive).then' cTwice).func [] = cTwice gFive []) ∧
     (((Pending.mk gFive).then' cTwice).func [] =
       match (Except.ok 5 : Res Nat) with
       | Except.ok v =>
         (match cTwice (capturedThunk (Except.ok v)) [] with
          | (Except.ok r, s2) => (Except.ok r, s2)
          | (Except.error x, s2) => cTwice (capturedThunk (Except.error x)) s2)
       | Except.error e => cTwice (capturedThunk (Except.error e)) []) ∧
     (∀ (oo : Res Nat) (t u : St),
       (capturedThunk oo t).1 = (capturedThunk oo u).1 ∧ (capturedThunk oo t).2 = t)) :=
  ⟨rfl, thunk_replay_semantics gFive cTwice [] (Except.ok 5) [] rfl⟩

/-- C4 (code-bug evidence): the `try` block of `Pending._do` also
encloses the success-path call of the continuation, so with the leaf
succeeding with `1` and the retry/fallback continuation `cValidate`
(which raises `xExn` when the upstream value arrives), the `Pending`
chain calls the continuation twice (two log entries) and returns
"fallback", swallowing `xExn`; the `Immediate` chain on the same input
calls the continuation once and propagates `xExn`, as the comment above
`_do` ("pass the resulting value or exception [of `_func`] in a lambda
to next") and the spec describe. -/
theorem pending_do_double_calls_continuation :
    ((Pending.mk fOne).then' cValidate).func []
      = (Except.ok "fallback", [Ev.print "c called", Ev.print "c called"]) ∧
    ((Immediate.mk fOne).then' cValidate).func []
      = (Except.error xExn, [Ev.print "c called"]) :=
  ⟨rfl, rfl⟩

/-- C5 counterexample: in the `Immediate` variant, `then` does not run
the wrapped computation before the continuation — with the effectful
leaf `fTick` and a continuation that ignores its thunk, invoking the
chain leaves an empty event log: the tick `fTick` would have recorded
never happens, so the wrapped work did not execute at all. -/
theorem immediate_then_skips_work_cex :
    ((Immediate.mk fTick).then' (fun _ => gFive)).func [] = (Except.ok 5, []) ∧
    (fTick []).2 = [Ev.tick] ∧
    Ev.tick ∉ ((((Immediate.mk fTick).then' (fun _ => gFive)).func []).2) := by
  refine ⟨rfl, rfl, by decide⟩

/-- C5 (amended): in the `Pending` variant, invoking `then`'s result
runs the wrapped computation to completion first — the continuation's
body starts from the wrapped computation's final log `s1`, so the
wrapped work and its effects occur on every chain invocation even when
the continuation ignores its thunk. In the `Immediate` variant the
continuation's body starts from the unchanged log `s`: the wrapped
computation is handed over unexecuted and runs only if the continuation
invokes its thunk. -/
theorem then_execution_timing {α β : Type} (f : Comp α) (g : Comp β)
    (s : St) (o : Res α) (s1 : St) (h : f s = (o, s1)) :
    (((Immediate.mk f).then' (fun _ => g)).func s = g s) ∧
    (((Pending.mk f).then' (fun _ => g)).func s =
      match o with
      | Except.ok _ =>
        (match g s1 with
         | (Except.ok r, s2) => (Except.ok r, s2)
         | (Except.error _, s2) => g s2)
      | Except.error _ => g s1) := by
  refine ⟨rfl, ?_⟩
  cases o with
  | ok v => exact doRun_ok f (fun _ => g) h
  | error e => exact doRun_error f (fun _ => g) h

/-- Witness for C5's amended theorem at the effectful leaf `fTick` and
a thunk-ignoring continuation. -/
theorem then_execution_timing_witness :
    fTick [] = (Except.ok 7, [Ev.tick]) ∧
    ((((Immediate.mk fTick).then' (fun _ => gFive)).func [] = gFive []) ∧
     (((Pending.mk fTick).then' (fun _ => gFive)).func [] =
       match (Except.ok 7 : Res Nat) with
       | Except.ok _ =>
         (match gFive [Ev.tick] with
          | (Except.ok r, s2) => (Except.ok r, s2)
          | (Except.error _, s2) => gFive s2)
       | Except.error _ => gFive [Ev.tick])) :=
  ⟨rfl, then_execution_timing fTick gFive [] (Except.ok 7) [Ev.tick] rfl⟩

/-- C6: in both variants, each invocation of `also(cm)`'s result runs
`__enter__` immediately before the wrapped computation (which starts
from the log extended by the enter event), appends exactly one exit
event after the computation's final log whether the outcome is a
success or a failure, and only then yields the unchanged outcome to the
caller; `also` itself is a pure constructor, so no acquire or release
happens when it is called. -/
theorem also_brackets_resource {α : Type} (f : Comp α) (cm : CM) (s : St) :
    ((Immediate.mk f).also cm).func s
      = ((f (s ++ [Ev.enter cm.name])).1,
         (f (s ++ [Ev.enter cm.name])).2 ++ [Ev.exit cm.name]) ∧
    ((Pending.mk f).also cm).func s
      = ((f (s ++ [Ev.enter cm.name])).1,
         (f (s ++ [Ev.enter cm.name])).2 ++ [Ev.exit cm.name]) := by
  have h : withStmt cm f s
      = ((f (s ++ [Ev.enter cm.name])).1,
         (f (s ++ [Ev.enter cm.name])).2 ++ [Ev.exit cm.name]) := by
    unfold withStmt
    rcases hg : f (s ++ [Ev.enter cm.name]) with ⟨o, s1⟩
    cases o <;> rfl
  exact ⟨h, h⟩

/-- C7: when the final continuation of a chain ignores the thunk it is
handed (so it never re-raises the upstream failure) and itself returns
normally, an upstream failure is permanently suppressed: in both
variants the chain's invocation is exactly the continuation's own body
(run from the current log for `Immediate`, from the failed
computation's final log for `Pending`) and therefore does not raise —
the continuation's return value is the chain's outcome. -/
theorem failure_suppressed_by_ignoring_continuation {α β : Type}
    (f : Comp α) (E : Exn) (g : Comp β) (s : St)
    (hf : ∀ t, (f t).1 = Except.error E)
    (hg : ∀ t, ∃ v, (g t).1 = Except.ok v) :
    (((Immediate.mk f).then' (fun _ => g)).func s = g s ∧
      ∃ v, (g s).1 = Except.ok v) ∧
    (((Pending.mk f).then' (fun _ => g)).func s = g ((f s).2) ∧
      ∃ v, (g ((f s).2)).1 = Except.ok v) := by
  refine ⟨⟨rfl, hg s⟩, ?_, hg ((f s).2)⟩
  exact doRun_error f (fun _ => g) (fst_error_eta (hf s))

/-- Witness for C7 at a concrete failing leaf and a thunk-ignoring,
normally-returning continuation. -/
theorem failure_suppressed_by_ignoring_continuation_witness :
    (((Immediate.mk failBoom).then' (fun _ => gFive)).func [] = gFive [] ∧
      ∃ v, (gFive []).1 = Except.ok v) ∧
    (((Pending.mk failBoom).then' (fun _ => gFive)).func [] = gFive ((failBoom []).2) ∧
      ∃ v, (gFive ((failBoom []).2)).1 = Except.ok v) :=
  failure_suppressed_by_ignoring_continuation failBoom boomExn gFive []
    (fun _ => rfl) (fun _ => ⟨5, rfl⟩)

/-- C8: `make_result` yields the `Immediate` variant on a plain
function and the `Pending` variant on a coroutine function, for every
underlying computation uniformly — the choice reads only the declared
nature (`inspect.iscoroutinefunction`), never the computation's runtime
behaviour, and the wrapped callable is passed through unchanged. -/
theorem make_result_classifies_statically {α : Type} (f : Comp α) :
    make_result (PyFunc.sync f) = ResultU.imm ⟨f⟩ ∧
    make_result (PyFunc.coroutine f) = ResultU.pend ⟨f⟩ :=
  ⟨rfl, rfl⟩

/-- C9: invoking a wrapped computation is transparent in both variants:
`Immediate.__call__` and `Pending.__call__` just run the wrapped
computation, so for a failure-free `f` the invocation returns exactly
`f`'s value, and for a failing `f` the invocation raises `f`'s failure
unchanged (outcome and effects are those of `f` itself). -/
theorem wrap_invoke_transparent {α : Type} (f : Comp α) (s : St) :
    (Immediate.mk f).call s = f s ∧ (Pending.mk f).call s = f s :=
  ⟨rfl, rfl⟩

/-- C10: the `except BaseException` in `Pending._do` captures every
exception the awaited computation raises — the theorem quantifies over
all exception values, including those whose class derives only from
`BaseException` (such as `KeyboardInterrupt` and `SystemExit`) — into a
replay thunk handed to the continuation; nothing propagates past the
suspension boundary before the continuation runs. -/
theorem pending_captures_base_exceptions {α β : Type} (f : Comp α) (E : Exn)
    (hf : ∀ t, f t = (Except.error E, t)) (c : Comp α → Comp β) (s : St) :
    ((Pending.mk f).then' c).func s = c (capturedThunk (Except.error E)) s ∧
    ∀ t, (capturedThunk (Except.error E) : Comp α) t = (Except.error E, t) := by
  exact ⟨doRun_error f c (hf s), fun _ => rfl⟩

/-- Witness for C10 at a leaf raising a `KeyboardInterrupt` — a class
outside the `Exception` hierarchy — and the identity continuation. -/
theorem pending_captures_base_exceptions_witness :
    interruptExn.cls.isExceptionSubclass = false ∧
    (((Pending.mk failInterrupt).then' idCont).func []
        = idCont (capturedThunk (Except.error interruptExn)) [] ∧
     ∀ t, (capturedThunk (Except.error interruptExn) : Comp Nat) t
        = (Except.error interruptExn, t)) :=
  ⟨rfl, pending_captures_base_exceptions failInterrupt interruptExn
    (fun _ => rfl) idCont []⟩

end PendingEcho
